import Mathlib

/-!
Verification development for the satellite-change-detection imagery core.

This file gives a shallow embedding of the scene-selection and
mosaic-assembly engine of the repository:

* `src/services/stacService.ts` — geometry helpers (`bboxToGeometry`,
  `bboxesIntersect`, `bboxContains`, `dateDiffDays`) and the
  `searchSentinel2Mosaic` search/reduction pipeline;
* `src/map/layerManager.ts` — `calculateCombinedBounds`, `addLayer`,
  `addMosaicLayer`.

Numbers (degrees, cloud-cover percentages) are embedded as rationals `ℚ`;
JavaScript `Date` instants are embedded as a rational number of days since
the Unix epoch (UTC), so `new Date(item.properties.datetime)` differences in
days and `toISOString().split('T')[0]` calendar-date extraction become exact
rational arithmetic and `Int.floor`.  Network and DOM/Leaflet effects are
external collaborators: the catalog HTTP response is passed in as data, and
layer construction is modelled by the pure record the code builds around it.
-/

namespace SatChange

/-! ## Data model: bounding boxes (`types.ts: BBox`) -/

/-- The `BBox` of `types.ts`: `{west, south, east, north}` in degrees. -/
structure BBox where
  west : ℚ
  south : ℚ
  east : ℚ
  north : ℚ
deriving DecidableEq, Repr

/-! ## Geometry utilities (`stacService.ts` lines 11–49) -/

/-- Function `bboxToGeometry(bbox, bufferDegrees)`: the closed 5-point GeoJSON ring of
the bbox expanded outward by `bufferDegrees` on each side
(`stacService.ts:11`).  Only the ring coordinates are modelled; the
surrounding `{type: 'Polygon', coordinates: [[...]]}` wrapper carries no
further data. -/
def bboxToGeometry (bbox : BBox) (bufferDegrees : ℚ) : List (ℚ × ℚ) :=
  [ (bbox.west - bufferDegrees, bbox.south - bufferDegrees),
    (bbox.east + bufferDegrees, bbox.south - bufferDegrees),
    (bbox.east + bufferDegrees, bbox.north + bufferDegrees),
    (bbox.west - bufferDegrees, bbox.north + bufferDegrees),
    (bbox.west - bufferDegrees, bbox.south - bufferDegrees) ]

/-- The bbox expanded outward by `bufferDegrees` on each side: the box whose
ring `bboxToGeometry` produces. -/
def bufferedBBox (bbox : BBox) (bufferDegrees : ℚ) : BBox :=
  { west := bbox.west - bufferDegrees
    south := bbox.south - bufferDegrees
    east := bbox.east + bufferDegrees
    north := bbox.north + bufferDegrees }

/-- Function `bboxesIntersect(bbox1, bbox2)` (`stacService.ts:27`): strict
inequalities on both axes. -/
def bboxesIntersect (bbox1 bbox2 : BBox) : Bool :=
  decide (bbox1.west < bbox2.east) &&
  decide (bbox1.east > bbox2.west) &&
  decide (bbox1.south < bbox2.north) &&
  decide (bbox1.north > bbox2.south)

/-- Function `bboxContains(bbox1, bbox2)` (`stacService.ts:37`): `bbox1` fully
contains `bbox2`, non-strict on all four sides. -/
def bboxContains (bbox1 bbox2 : BBox) : Bool :=
  decide (bbox1.west ≤ bbox2.west) &&
  decide (bbox1.east ≥ bbox2.east) &&
  decide (bbox1.south ≤ bbox2.south) &&
  decide (bbox1.north ≥ bbox2.north)

/-- Function `dateDiffDays(date1, date2)` (`stacService.ts:47`): absolute temporal
distance in (fractional) days.  Instants are already in days, so the
source's division of the millisecond difference by `1000*60*60*24` is the
identity here. -/
def dateDiffDays (date1 date2 : ℚ) : ℚ := |date1 - date2|

/-- The UTC calendar date of an instant, as a day index: models
`new Date(dt).toISOString().split('T')[0]` used for date grouping. -/
def calDateOf (dt : ℚ) : ℤ := ⌊dt⌋

/-! ## Raw catalog features and tile-id extraction -/

/-- A raw feature of the catalog response (`data.features[i]`): `id`,
`properties.datetime`, `properties["eo:cloud_cover"]`, `bbox`, and the
pieces of `assets` / `links` the pipeline reads. -/
structure Feature where
  id : String
  datetime : ℚ
  cloudCover : ℚ
  bbox : BBox
  hasVisual : Bool
  visualHref : String
  hasThumbnail : Bool
  thumbnailHref : String
  selfHref : Option String
deriving DecidableEq, Repr

/-- Split a character list at every underscore, keeping empty segments:
the semantics of JavaScript `id.split('_')`, written structurally. -/
def splitUnderscore : List Char → List (List Char)
  | [] => [[]]
  | c :: cs =>
    match splitUnderscore cs with
    | [] => [[]]
    | p :: ps => if c = '_' then [] :: p :: ps else (c :: p) :: ps

/-- The expression `item.id.split('_').slice(1, 2).join('_')` (`stacService.ts:160`):
the second underscore-separated component of the id (the MGRS tile id,
e.g. `"20QKF"`), or `""` when the id has fewer than two components. -/
def extractTileId (id : String) : String :=
  match (splitUnderscore id.toList).drop 1 with
  | [] => ""
  | p :: _ => String.mk p

/-- The spatial group key of a feature. -/
def tileKey (f : Feature) : String := extractTileId f.id

/-! ## Scene Reducer: the `searchSentinel2Mosaic` pipeline
(`stacService.ts` lines 156–304)

JavaScript `Map` iteration order is key-insertion order, i.e. first-seen
order of the keys; `Array.prototype.sort` is a stable sort w.r.t. the
comparator.  Both are modelled explicitly below. -/

/-- The keys of a JavaScript `Map` built by inserting `key x` for each `x`
of the list in order: every key once, in first-seen order. -/
def firstSeen {α κ : Type} [DecidableEq κ] (key : α → κ) : List α → List κ
  | [] => []
  | x :: xs => key x :: (firstSeen key xs).filter (fun k => k ≠ key x)

/-- Stage A comparator (`stacService.ts:174`): ascending date proximity to
the target date, breaking near-ties (difference of day-offsets < 1 day) by
ascending cloud cover.  `stageARel t a b` holds when the comparator orders
`a` at-or-before `b`. -/
def stageARel (targetDate : ℚ) (a b : Feature) : Prop :=
  if |dateDiffDays a.datetime targetDate - dateDiffDays b.datetime targetDate| < 1 then
    a.cloudCover ≤ b.cloudCover
  else
    dateDiffDays a.datetime targetDate ≤ dateDiffDays b.datetime targetDate

instance (targetDate : ℚ) : DecidableRel (stageARel targetDate) := fun a b => by
  unfold stageARel; split <;> infer_instance

/-- Stage A per-group ranking (`stacService.ts:172–183`): stable-sort one
tile's candidates by the Stage A comparator and keep the top
`maxCandidatesPerTile` (`candidates.sort(...)` then `.slice(0, max)`). -/
def rankGroup (targetDate : ℚ) (maxCandidatesPerTile : ℕ) (group : List Feature) :
    List Feature :=
  (List.insertionSort (stageARel targetDate) group).take maxCandidatesPerTile

/-- Stage A (`stacService.ts:156–187`): partition the raw features by tile
id (a `Map` in first-seen key order, each group in encounter order), rank
each group, and concatenate the groups' kept candidates
(`allCandidateItems`). -/
def stageA (targetDate : ℚ) (maxCandidatesPerTile : ℕ) (features : List Feature) :
    List Feature :=
  (firstSeen tileKey features).flatMap
    (fun k => rankGroup targetDate maxCandidatesPerTile
      (features.filter (fun f => tileKey f == k)))

/-- Stage B (`stacService.ts:191–201`): drop candidates whose bbox does not
intersect the exact, unbuffered AOI (`intersectingItems`). -/
def stageB (aoi : BBox) (candidates : List Feature) : List Feature :=
  candidates.filter (fun f => bboxesIntersect aoi f.bbox)

/-- The Stage C subset (`stacService.ts:209–217`): surviving candidates
whose bbox fully contains the AOI (`tilesContainingAOI`). -/
def containsAOI (aoi : BBox) (candidates : List Feature) : List Feature :=
  candidates.filter (fun f => bboxContains f.bbox aoi)

/-- Cloud-cover order used by Stage C's per-date pick
(`items.sort((a, b) => a.cc - b.cc)`, `stacService.ts:234`). -/
def ccRel (a b : Feature) : Prop := a.cloudCover ≤ b.cloudCover

instance : DecidableRel ccRel := fun a b =>
  decidable_of_iff (a.cloudCover ≤ b.cloudCover) Iff.rfl

instance : IsTotal Feature ccRel := ⟨fun a b => le_total a.cloudCover b.cloudCover⟩

instance : IsTrans Feature ccRel := ⟨fun _ _ _ hab hbc => le_trans hab hbc⟩

/-- Stage C per-date winner (`stacService.ts:233–235`): among the containing
candidates of calendar date `d`, the first element after a stable sort by
ascending cloud cover. -/
def bestForDate (containing : List Feature) (d : ℤ) : Option Feature :=
  (List.insertionSort ccRel
    (containing.filter (fun f => calDateOf f.datetime == d))).head?

/-- The full reduction (`stacService.ts:156–240`): Stage A ranking, Stage B
AOI filter, then either the Stage C full-containment short-circuit (one
best scene per calendar date) or Stage D (return all survivors);
the resulting `finalItems`. -/
def reduceScenes (aoi : BBox) (targetDate : ℚ) (maxCandidatesPerTile : ℕ)
    (features : List Feature) : List Feature :=
  let intersectingItems := stageB aoi (stageA targetDate maxCandidatesPerTile features)
  let tilesContainingAOI := containsAOI aoi intersectingItems
  if tilesContainingAOI.isEmpty then intersectingItems
  else (firstSeen (fun f => calDateOf f.datetime) tilesContainingAOI).filterMap
    (bestForDate tilesContainingAOI)

/-! ## Search entry point (`stacService.ts:73–309`)

The `fetch` of the catalog backend is the external collaborator: its
outcome (HTTP status, parsed features) is passed in as a `Response`.  A
non-success status makes the code `throw` (caught and re-thrown by the
surrounding `catch`), modelled as `Except.error`. -/

/-- Outcome of the catalog backend call: `response.ok` and
`data.features`. -/
structure Response where
  ok : Bool
  features : List Feature
deriving Repr

/-- The error surfaced when the backend returns a non-success status
(`throw new Error(STAC API error)`, `stacService.ts:113`) — the spec's
`CatalogUnavailable`. -/
inductive CatalogError where
  | catalogUnavailable
deriving DecidableEq, Repr

/-- The `STACItem` of `types.ts`, as constructed by the mosaic search
(`stacService.ts:290`).  `hasRenderingInfo` models the presence of
`properties.renderingInfo` (set only by the Landsat search path). -/
structure STACItem where
  id : String
  tileId : String
  datetime : ℚ
  cloudCover : ℚ
  cogUrl : Option String
  stacItemUrl : Option String
  previewUrl : Option String
  bounds : BBox
  collection : String
  hasRenderingInfo : Bool
deriving DecidableEq, Repr

/-- Fallback STAC item URL (`stacService.ts:265`):
`EARTH_SEARCH_URL.replace('/search', '') + '/collections/sentinel-2-l2a/items/' + id`. -/
def stacItemFallbackUrl (id : String) : String :=
  "https://earth-search.aws.element84.com/v1/collections/sentinel-2-l2a/items/" ++ id

/-- Function `generatePreviewUrl` (`stacService.ts:64`); the browser's
`encodeURIComponent` is external and modelled as the identity on the
embedded URL string. -/
def generatePreviewUrl (cogUrl : String) : String :=
  "https://titiler-1039034665364.europe-west1.run.app/cog/preview?url=" ++ cogUrl ++
    "&width=256&max_size=512"

/-- Conversion of one final feature to a `STACItem`
(`stacService.ts:262–302`): `none` when the feature lacks a `visual` asset
(the item is skipped with a warning). -/
def toSTACItem (f : Feature) : Option STACItem :=
  if f.hasVisual then
    some
      { id := f.id
        tileId := tileKey f
        datetime := f.datetime
        cloudCover := f.cloudCover
        cogUrl := some f.visualHref
        stacItemUrl := some (f.selfHref.getD (stacItemFallbackUrl f.id))
        previewUrl := some (if f.hasThumbnail then f.thumbnailHref
          else generatePreviewUrl f.visualHref)
        bounds := f.bbox
        collection := "sentinel-2-l2a"
        hasRenderingInfo := false }
  else none

/-- Function `searchSentinel2Mosaic` (`stacService.ts:73–309`) given the backend
response: non-success status propagates as an error; zero features returns
`null`; otherwise the reduction pipeline runs and the converted items are
returned, `null` when none survive conversion
(`return stacItems.length > 0 ? stacItems : null`). -/
def searchSentinel2Mosaic (resp : Response) (aoi : BBox) (targetDate : ℚ)
    (maxCandidatesPerTile : ℕ) : Except CatalogError (Option (List STACItem)) :=
  if !resp.ok then .error .catalogUnavailable
  else if resp.features.isEmpty then .ok none
  else
    let finalItems := reduceScenes aoi targetDate maxCandidatesPerTile resp.features
    let stacItems := finalItems.filterMap toSTACItem
    .ok (if stacItems.isEmpty then none else some stacItems)

/-! ## Layer manager (`layerManager.ts`) -/

/-- How `addLayer` sources a Leaflet layer (`layerManager.ts:96–114`); the
Leaflet objects themselves are external. -/
inductive LayerSource where
  | planetaryComputerTiTiler
  | titilerStac
  | imageOverlay
  | mosaic
deriving DecidableEq, Repr

/-- Errors thrown by the layer manager:
`Cannot create mosaic layer with no items` (`layerManager.ts:40`, the
spec's `EmptySceneSet`) and `No valid image source found for layer`
(`layerManager.ts:113`). -/
inductive LayerError where
  | emptySceneSet
  | noValidImageSource
deriving DecidableEq, Repr

/-- The pure content of a `ManagedLayer` (`layerManager.ts:9–16`), with the
Leaflet layer abstracted to its source kind. -/
structure ManagedLayer where
  id : String
  source : LayerSource
  item : STACItem
  opacity : ℚ
  visible : Bool
  zIndex : ℤ
deriving DecidableEq, Repr

/-- The value `Math.max(0, ...zIndexes)` over the existing layers
(`layerManager.ts:58`). -/
def highestZIndex (layers : List ManagedLayer) : ℤ :=
  (layers.map (fun l => l.zIndex)).foldl max 0

/-- One step of the `calculateCombinedBounds` loop
(`layerManager.ts:155–160`): coordinate-wise min/max of the accumulator
with one item's bounds. -/
def combineBounds (acc : BBox) (item : STACItem) : BBox :=
  { west := min acc.west item.bounds.west
    east := max acc.east item.bounds.east
    south := min acc.south item.bounds.south
    north := max acc.north item.bounds.north }

/-- Function `calculateCombinedBounds(items)` (`layerManager.ts:149–163`):
coordinate-wise min/max fold seeded with the first item's bounds; `none`
models the `items[0]` access failing on an empty array. -/
def calculateCombinedBounds (items : List STACItem) : Option BBox :=
  match items with
  | [] => none
  | first :: _ => some (items.foldl combineBounds first.bounds)

/-- Function `addLayer` (`layerManager.ts:90–145`): pick the layer source from the
item's collection and assets, or fail; register with the next z-index. -/
def addLayer (layers : List ManagedLayer) (layerId : String) (item : STACItem)
    (opacity : ℚ) : Except LayerError ManagedLayer :=
  if (item.collection == "landsat-c2-l2" || item.collection == "sentinel-1-grd")
      && item.hasRenderingInfo then
    .ok { id := layerId, source := .planetaryComputerTiTiler, item := item,
          opacity := opacity, visible := true, zIndex := highestZIndex layers + 1 }
  else if item.stacItemUrl.isSome && item.collection == "sentinel-2-l2a" then
    .ok { id := layerId, source := .titilerStac, item := item,
          opacity := opacity, visible := true, zIndex := highestZIndex layers + 1 }
  else if item.cogUrl.isSome then
    .ok { id := layerId, source := .imageOverlay, item := item,
          opacity := opacity, visible := true, zIndex := highestZIndex layers + 1 }
  else .error .noValidImageSource

/-- Function `addMosaicLayer` (`layerManager.ts:30–86`): zero scenes throw
(`EmptySceneSet`); one scene delegates to `addLayer`; otherwise the mosaic
layer carries the first item with the combined bounds substituted. -/
def addMosaicLayer (layers : List ManagedLayer) (layerId : String)
    (items : List STACItem) (opacity : ℚ) : Except LayerError ManagedLayer :=
  match items with
  | [] => .error .emptySceneSet
  | [item] => addLayer layers layerId item opacity
  | first :: _ =>
    match calculateCombinedBounds items with
    | none => .error .emptySceneSet
    | some combinedBounds =>
      .ok { id := layerId, source := .mosaic,
            item := { first with bounds := combinedBounds },
            opacity := opacity, visible := true,
            zIndex := highestZIndex layers + 1 }

/-! ## Concrete scenario data

Inputs used by the scenario theorems and witnesses below.  All bounding
boxes live around the 10°×10° AOI `aoiTen`. -/

/-- AOI used by concrete search scenarios: a 10°×10° box. -/
def aoiTen : BBox := ⟨0, 0, 10, 10⟩

/-- Offset 1 day, 5 % cloud (C3 scenario, tile 30TXT). -/
def fOff1cc5 : Feature :=
  { id := "S2A_30TXT_a", datetime := 11, cloudCover := 5, bbox := ⟨-1, -1, 11, 11⟩,
    hasVisual := true, visualHref := "v", hasThumbnail := false, thumbnailHref := "",
    selfHref := none }

/-- Offset 0 days, 40 % cloud. -/
def fOff0cc40 : Feature := { fOff1cc5 with id := "S2B_30TXT_b", datetime := 10, cloudCover := 40 }

/-- Offset 3 days, 2 % cloud. -/
def fOff3cc2 : Feature := { fOff1cc5 with id := "S2A_30TXT_c", datetime := 13, cloudCover := 2 }

/-- Offset 0 days, 40 % cloud (second C3 scenario). -/
def gOff0cc40 : Feature := { fOff1cc5 with id := "S2B_30TXT_d", datetime := 10, cloudCover := 40 }

/-- Offset 0 days, 2 % cloud (second C3 scenario). -/
def gOff0cc2 : Feature := { fOff1cc5 with id := "S2A_30TXT_e", datetime := 10, cloudCover := 2 }

/-- A scene of tile 30TXT that intersects `aoiTen` without containing it. -/
def fPartial : Feature :=
  { id := "S2A_30TXT_1", datetime := 2, cloudCover := 5, bbox := ⟨-1, -1, 5, 11⟩,
    hasVisual := true, visualHref := "v", hasThumbnail := true, thumbnailHref := "t",
    selfHref := none }

/-- The converted scene of `fPartial`. -/
def sPartial : STACItem :=
  { id := "S2A_30TXT_1", tileId := "30TXT", datetime := 2, cloudCover := 5,
    cogUrl := some "v", stacItemUrl := some (stacItemFallbackUrl "S2A_30TXT_1"),
    previewUrl := some "t", bounds := ⟨-1, -1, 5, 11⟩, collection := "sentinel-2-l2a",
    hasRenderingInfo := false }

/-- A far-away candidate: intersects only the buffered query region, not
the AOI itself. -/
def fFar : Feature :=
  { id := "S2A_31TAA_1", datetime := 0, cloudCover := 5, bbox := ⟨20, 20, 30, 30⟩,
    hasVisual := true, visualHref := "v", hasThumbnail := true, thumbnailHref := "t",
    selfHref := none }

/-- First 30TXT candidate of the C1 counterexample (day offset 0). -/
def c1f1 : Feature :=
  { id := "S2A_30TXT_p", datetime := 0, cloudCover := 5, bbox := ⟨-1, -1, 5, 11⟩,
    hasVisual := true, visualHref := "v1", hasThumbnail := true, thumbnailHref := "t1",
    selfHref := none }

/-- Second 30TXT candidate of the C1 counterexample (day offset 2). -/
def c1f2 : Feature := { c1f1 with id := "S2B_30TXT_q", datetime := 2, cloudCover := 7 }

/-- The catalog response of the C1 counterexample. -/
def respC1 : Response := ⟨true, [c1f1, c1f2]⟩

/-- A 30TXT scene covering the west of `aoiTen`. -/
def wWest : Feature :=
  { id := "S2A_30TXT_x", datetime := 0, cloudCover := 5, bbox := ⟨-1, -1, 5, 11⟩,
    hasVisual := true, visualHref := "v", hasThumbnail := true, thumbnailHref := "t",
    selfHref := none }

/-- A 30TXU scene covering the east of `aoiTen`. -/
def wEast : Feature :=
  { id := "S2A_30TXU_y", datetime := 0, cloudCover := 6, bbox := ⟨5, -1, 11, 11⟩,
    hasVisual := true, visualHref := "v2", hasThumbnail := true, thumbnailHref := "t2",
    selfHref := none }

/-- A 30TXT scene fully containing `aoiTen`, on day 2. -/
def fContain : Feature :=
  { id := "S2A_30TXT_c1", datetime := 2, cloudCover := 9, bbox := ⟨-1, -1, 11, 11⟩,
    hasVisual := true, visualHref := "vc", hasThumbnail := true, thumbnailHref := "tc",
    selfHref := none }

/-- The converted scene of `fContain`. -/
def sContain : STACItem :=
  { id := "S2A_30TXT_c1", tileId := "30TXT", datetime := 2, cloudCover := 9,
    cogUrl := some "vc", stacItemUrl := some (stacItemFallbackUrl "S2A_30TXT_c1"),
    previewUrl := some "tc", bounds := ⟨-1, -1, 11, 11⟩, collection := "sentinel-2-l2a",
    hasRenderingInfo := false }

/-- First scene of the C5 witness (only the bounds matter). -/
def iBox1 : STACItem :=
  { sContain with id := "i1", bounds := ⟨0, 0, 4, 4⟩ }

/-- Second scene of the C5 witness. -/
def iBox2 : STACItem :=
  { sContain with id := "i2", bounds := ⟨2, 1, 6, 3⟩ }

/-- Third scene of the C5 witness. -/
def iBox3 : STACItem :=
  { sContain with id := "i3", bounds := ⟨-1, 2, 3, 5⟩ }

/-! ## Basic characterizations of the geometry predicates -/

theorem bboxesIntersect_iff (a b : BBox) :
    bboxesIntersect a b = true ↔
      a.west < b.east ∧ a.east > b.west ∧ a.south < b.north ∧ a.north > b.south := by
  simp [bboxesIntersect, and_assoc]

theorem bboxContains_iff (a b : BBox) :
    bboxContains a b = true ↔
      a.west ≤ b.west ∧ a.east ≥ b.east ∧ a.south ≤ b.south ∧ a.north ≥ b.north := by
  simp [bboxContains, and_assoc]

theorem bboxContains_refl (a : BBox) : bboxContains a a = true := by
  simp [bboxContains_iff]

theorem bboxContains_trans {a b c : BBox} (hab : bboxContains a b = true)
    (hbc : bboxContains b c = true) : bboxContains a c = true := by
  rw [bboxContains_iff] at hab hbc ⊢
  obtain ⟨h1, h2, h3, h4⟩ := hab
  obtain ⟨h5, h6, h7, h8⟩ := hbc
  exact ⟨le_trans h1 h5, le_trans h6 h2, le_trans h3 h7, le_trans h8 h4⟩

theorem bboxContains_antisymm {a b : BBox} (hab : bboxContains a b = true)
    (hba : bboxContains b a = true) : a = b := by
  rw [bboxContains_iff] at hab hba
  obtain ⟨h1, h2, h3, h4⟩ := hab
  obtain ⟨h5, h6, h7, h8⟩ := hba
  cases a; cases b
  simp only [BBox.mk.injEq]
  exact ⟨le_antisymm h1 h5, le_antisymm h3 h7, le_antisymm h6 h2, le_antisymm h8 h4⟩

/-! ## C6: boundary semantics of the geometry predicates -/

/-- C6: boxes that merely touch at an edge (one equal coordinate) never
count as intersecting — `bboxesIntersect` is strict on both axes — while
`bboxContains` is non-strict on all four sides, so an inner box whose edge
coincides with the outer box's edge still counts as contained. -/
theorem intersect_strict_and_contains_nonstrict :
    (∀ a b : BBox,
      a.east = b.west ∨ a.west = b.east ∨ a.north = b.south ∨ a.south = b.north →
      bboxesIntersect a b = false) ∧
    (∀ outer inner : BBox, bboxContains outer inner = true ↔
      outer.west ≤ inner.west ∧ outer.east ≥ inner.east ∧
      outer.south ≤ inner.south ∧ outer.north ≥ inner.north) := by
  constructor
  · intro a b h
    have : ¬ bboxesIntersect a b = true := by
      rw [bboxesIntersect_iff]
      rintro ⟨h1, h2, h3, h4⟩
      rcases h with h | h | h | h
      · exact absurd h2 (by rw [h]; exact lt_irrefl _)
      · exact absurd h1 (by rw [h]; exact lt_irrefl _)
      · exact absurd h4 (by rw [h]; exact lt_irrefl _)
      · exact absurd h3 (by rw [h]; exact lt_irrefl _)
    simpa using this
  · exact bboxContains_iff

/-- Witness for C6: the unit squares `[0,1]²` and `[1,2]×[0,1]` touch at
`east = west` and do not intersect; `[0,1]×[1,2]` touches `[0,1]²` from
above and does not intersect; a box sharing its west and north edges with a
larger box is still contained. -/
theorem intersect_strict_and_contains_nonstrict_witness :
    bboxesIntersect ⟨0, 0, 1, 1⟩ ⟨1, 0, 2, 1⟩ = false ∧
    bboxesIntersect ⟨0, 1, 1, 2⟩ ⟨0, 0, 1, 1⟩ = false ∧
    bboxContains ⟨0, 0, 2, 2⟩ ⟨0, 1, 1, 2⟩ = true :=
  ⟨intersect_strict_and_contains_nonstrict.1 ⟨0, 0, 1, 1⟩ ⟨1, 0, 2, 1⟩ (Or.inl rfl),
   intersect_strict_and_contains_nonstrict.1 ⟨0, 1, 1, 2⟩ ⟨0, 0, 1, 1⟩
     (Or.inr (Or.inr (Or.inr rfl))),
   (intersect_strict_and_contains_nonstrict.2 ⟨0, 0, 2, 2⟩ ⟨0, 1, 1, 2⟩).mpr
     (by refine ⟨le_refl _, ?_, ?_, le_refl _⟩ <;> decide)⟩

/-! ## C7: buffering -/

/-- C7: a zero buffer reproduces the exact closed 5-point ring of the bbox;
the buffered ring is the ring of the bbox expanded by `bufferDegrees` on
each side; and for every positive buffer the buffered box contains the
original box under `bboxContains`. -/
theorem bufferZero_identity_and_buffered_contains :
    (∀ bbox : BBox, bboxToGeometry bbox 0 =
      [ (bbox.west, bbox.south), (bbox.east, bbox.south), (bbox.east, bbox.north),
        (bbox.west, bbox.north), (bbox.west, bbox.south) ]) ∧
    (∀ (bbox : BBox) (bufferDegrees : ℚ),
      bboxToGeometry bbox bufferDegrees = bboxToGeometry (bufferedBBox bbox bufferDegrees) 0) ∧
    (∀ (bbox : BBox) (bufferDegrees : ℚ), 0 < bufferDegrees →
      bboxContains (bufferedBBox bbox bufferDegrees) bbox = true) := by
  refine ⟨fun bbox => by simp [bboxToGeometry],
    fun bbox buf => by simp [bboxToGeometry, bufferedBBox],
    fun bbox buf hbuf => ?_⟩
  rw [bboxContains_iff]
  refine ⟨sub_le_self _ hbuf.le, le_add_of_nonneg_right hbuf.le,
    sub_le_self _ hbuf.le, le_add_of_nonneg_right hbuf.le⟩

/-- Witness for C7 at the unit box and buffer 1°. -/
theorem bufferZero_identity_and_buffered_contains_witness :
    0 < (1 : ℚ) ∧ bboxContains (bufferedBBox ⟨0, 0, 1, 1⟩ 1) ⟨0, 0, 1, 1⟩ = true :=
  ⟨by decide,
   bufferZero_identity_and_buffered_contains.2.2 ⟨0, 0, 1, 1⟩ 1 (by decide)⟩

/-! ## C8: catalog failure semantics -/

/-- C8: a non-success backend status makes the search fail with the
distinguishable `catalogUnavailable` error, while a success response with
zero features returns `null` (no imagery) without any error. -/
theorem catalog_failure_semantics (resp : Response) (aoi : BBox) (targetDate : ℚ)
    (maxCandidatesPerTile : ℕ) :
    (resp.ok = false →
      searchSentinel2Mosaic resp aoi targetDate maxCandidatesPerTile =
        .error .catalogUnavailable) ∧
    (resp.ok = true → resp.features = [] →
      searchSentinel2Mosaic resp aoi targetDate maxCandidatesPerTile = .ok none) := by
  constructor
  · intro h
    simp [searchSentinel2Mosaic, h]
  · intro h hf
    simp [searchSentinel2Mosaic, h, hf]

/-- Witness for C8: a failed response errors; a success response with no
features returns `null`. -/
theorem catalog_failure_semantics_witness :
    searchSentinel2Mosaic ⟨false, []⟩ ⟨0, 0, 1, 1⟩ 0 6 = .error .catalogUnavailable ∧
    searchSentinel2Mosaic ⟨true, []⟩ ⟨0, 0, 1, 1⟩ 0 6 = .ok none :=
  ⟨(catalog_failure_semantics ⟨false, []⟩ ⟨0, 0, 1, 1⟩ 0 6).1 rfl,
   (catalog_failure_semantics ⟨true, []⟩ ⟨0, 0, 1, 1⟩ 0 6).2 rfl rfl⟩

/-! ## C9: building a mosaic from zero scenes -/

/-- C9: `addMosaicLayer` invoked with an empty scene list always fails with
the `emptySceneSet` error, whatever the existing layers, layer id and
opacity: no mosaic layer is produced. -/
theorem addMosaicLayer_empty_fails (layers : List ManagedLayer) (layerId : String)
    (opacity : ℚ) :
    addMosaicLayer layers layerId [] opacity = .error .emptySceneSet := rfl

/-! ## C3: Stage A ranking scenario

Three candidates of one MGRS tile at day-offsets 1, 0 and 3 from the target
date (day 10) with cloud covers 5 %, 40 % and 2 %. -/

/-- C3: with candidates at day-offsets 1, 0, 3 and cloud covers 5 %, 40 %,
2 %, Stage A ranks the day-offset-0 candidate first despite its 40 % cloud
cover (the cloud tie-break only applies to date differences under 1 day);
with two candidates both at offset 0 and covers 40 % and 2 %, the 2 %
candidate is ranked first. -/
theorem stageA_ranking_scenario :
    (stageA 10 6 [fOff1cc5, fOff0cc40, fOff3cc2]).head? = some fOff0cc40 ∧
    (stageA 10 6 [gOff0cc40, gOff0cc2]).head? = some gOff0cc2 := by
  constructor
  · have hA : stageA 10 6 [fOff1cc5, fOff0cc40, fOff3cc2] =
        (List.insertionSort (stageARel 10) [fOff1cc5, fOff0cc40, fOff3cc2]).take 6 ++ [] := rfl
    have hBC : stageARel 10 fOff0cc40 fOff3cc2 := by
      norm_num [stageARel, dateDiffDays, fOff1cc5, fOff0cc40, fOff3cc2]
    have hAB : ¬ stageARel 10 fOff1cc5 fOff0cc40 := by
      norm_num [stageARel, dateDiffDays, fOff1cc5, fOff0cc40]
    have hAC : stageARel 10 fOff1cc5 fOff3cc2 := by
      norm_num [stageARel, dateDiffDays, fOff1cc5, fOff3cc2]
    have hsort : List.insertionSort (stageARel 10) [fOff1cc5, fOff0cc40, fOff3cc2] =
        [fOff0cc40, fOff1cc5, fOff3cc2] := by
      simp [List.insertionSort, List.orderedInsert, if_pos hBC, if_neg hAB, if_pos hAC]
    rw [hA, hsort]
    rfl
  · have hA : stageA 10 6 [gOff0cc40, gOff0cc2] =
        (List.insertionSort (stageARel 10) [gOff0cc40, gOff0cc2]).take 6 ++ [] := rfl
    have hDE : ¬ stageARel 10 gOff0cc40 gOff0cc2 := by
      norm_num [stageARel, dateDiffDays, fOff1cc5, gOff0cc40, gOff0cc2]
    have hsort : List.insertionSort (stageARel 10) [gOff0cc40, gOff0cc2] =
        [gOff0cc2, gOff0cc40] := by
      simp [List.insertionSort, List.orderedInsert, if_neg hDE]
    rw [hA, hsort]
    rfl

/-! ## C10: the search never returns an empty list -/

/-- C10: whenever the mosaic search succeeds with a list of scenes, that
list is non-empty — an empty array is never handed to the caller (the code
returns `null` instead). -/
theorem search_result_nonempty (resp : Response) (aoi : BBox) (targetDate : ℚ)
    (maxCandidatesPerTile : ℕ) (items : List STACItem)
    (h : searchSentinel2Mosaic resp aoi targetDate maxCandidatesPerTile = .ok (some items)) :
    1 ≤ items.length := by
  unfold searchSentinel2Mosaic at h
  by_cases hok : resp.ok
  · by_cases hfe : resp.features.isEmpty
    · simp [hok, hfe] at h
    · by_cases hst :
        ((reduceScenes aoi targetDate maxCandidatesPerTile resp.features).filterMap
          toSTACItem).isEmpty
      · simp [hok, hfe, hst] at h
      · simp only [hok, hfe, hst, Bool.not_true, Bool.false_eq_true, if_false,
          Except.ok.injEq, Option.some.injEq] at h
        rw [← h]
        refine List.length_pos.mpr ?_
        intro hnil
        rw [hnil] at hst
        exact hst rfl
  · simp [hok] at h

/-- Witness for C10: a search that succeeds does so with at least one
scene. -/
theorem search_result_nonempty_witness :
    searchSentinel2Mosaic ⟨true, [fPartial]⟩ aoiTen 0 6 =
      .ok (some ((reduceScenes aoiTen 0 6 [fPartial]).filterMap toSTACItem)) ∧
    1 ≤ ((reduceScenes aoiTen 0 6 [fPartial]).filterMap toSTACItem).length :=
  ⟨rfl, search_result_nonempty ⟨true, [fPartial]⟩ aoiTen 0 6 _ rfl⟩

/-! ## C1 counterexample: Stage D keeps several scenes of one group

Two candidates of the same tile 30TXT, both intersecting the AOI, none
containing it: Stage D returns both, so group 30TXT contributes two scenes
to the returned list, not exactly one. -/

/-- C1 is false on the code: in a Stage D search (no surviving candidate
contains the AOI) the group key 30TXT, present among the AOI-intersecting
candidates, contributes two scenes to the returned list, not exactly one —
Stage A deliberately keeps up to `maxCandidatesPerTile` candidates per
tile and Stage D returns all survivors. -/
theorem stageD_two_scenes_per_group :
    containsAOI aoiTen (stageB aoiTen (stageA 0 6 respC1.features)) = [] ∧
    searchSentinel2Mosaic respC1 aoiTen 0 6 =
      .ok (some (List.filterMap toSTACItem [c1f1, c1f2])) ∧
    (List.filterMap toSTACItem [c1f1, c1f2]).countP (fun s => s.tileId == "30TXT") = 2 := by
  have hA : stageA 0 6 [c1f1, c1f2] =
      (List.insertionSort (stageARel 0) [c1f1, c1f2]).take 6 ++ [] := rfl
  have h12 : stageARel 0 c1f1 c1f2 := by
    norm_num [stageARel, dateDiffDays, c1f1, c1f2]
  have hsort : List.insertionSort (stageARel 0) [c1f1, c1f2] = [c1f1, c1f2] := by
    simp [List.insertionSort, List.orderedInsert, if_pos h12]
  have hstageA : stageA 0 6 [c1f1, c1f2] = [c1f1, c1f2] := by
    rw [hA, hsort]; rfl
  refine ⟨?_, ?_, ?_⟩
  · show containsAOI aoiTen (stageB aoiTen (stageA 0 6 [c1f1, c1f2])) = []
    rw [hstageA]; rfl
  · show searchSentinel2Mosaic ⟨true, [c1f1, c1f2]⟩ aoiTen 0 6 = _
    have hred : reduceScenes aoiTen 0 6 [c1f1, c1f2] = [c1f1, c1f2] := by
      simp only [reduceScenes, hstageA]; rfl
    simp only [searchSentinel2Mosaic, hred]; rfl
  · rfl

/-! ## Structural lemmas about the pipeline -/

theorem mem_of_mem_rankGroup {targetDate : ℚ} {m : ℕ} {g : List Feature} {x : Feature}
    (h : x ∈ rankGroup targetDate m g) : x ∈ g := by
  unfold rankGroup at h
  exact (List.perm_insertionSort _ _).mem_iff.mp (List.mem_of_mem_take h)

theorem length_rankGroup_le (targetDate : ℚ) (m : ℕ) (g : List Feature) :
    (rankGroup targetDate m g).length ≤ m := by
  unfold rankGroup
  exact List.length_take_le _ _

theorem mem_of_mem_stageA {targetDate : ℚ} {m : ℕ} {features : List Feature} {x : Feature}
    (h : x ∈ stageA targetDate m features) : x ∈ features := by
  unfold stageA at h
  rw [List.mem_flatMap] at h
  obtain ⟨k, _, hx⟩ := h
  exact List.mem_of_mem_filter (mem_of_mem_rankGroup hx)

theorem mem_stageB {aoi : BBox} {candidates : List Feature} {x : Feature} :
    x ∈ stageB aoi candidates ↔
      x ∈ candidates ∧ bboxesIntersect aoi x.bbox = true := by
  unfold stageB
  exact List.mem_filter

theorem mem_containsAOI {aoi : BBox} {candidates : List Feature} {x : Feature} :
    x ∈ containsAOI aoi candidates ↔
      x ∈ candidates ∧ bboxContains x.bbox aoi = true := by
  unfold containsAOI
  exact List.mem_filter

theorem toSTACItem_fields {f : Feature} {s : STACItem} (h : toSTACItem f = some s) :
    s.bounds = f.bbox ∧ s.tileId = tileKey f ∧ s.datetime = f.datetime ∧
      s.cloudCover = f.cloudCover ∧ f.hasVisual = true := by
  by_cases hv : f.hasVisual
  · rw [toSTACItem, if_pos hv, Option.some.injEq] at h
    subst h
    exact ⟨rfl, rfl, rfl, rfl, hv⟩
  · rw [toSTACItem, if_neg hv] at h
    exact absurd h (by simp)

theorem toSTACItem_of_hasVisual {f : Feature} (hv : f.hasVisual = true) :
    ∃ s, toSTACItem f = some s := by
  unfold toSTACItem
  rw [if_pos hv]
  exact ⟨_, rfl⟩

/-- A successful search with scenes returns exactly the reduced scenes
converted to `STACItem`s. -/
theorem searchSentinel2Mosaic_ok_some {resp : Response} {aoi : BBox} {targetDate : ℚ}
    {m : ℕ} {items : List STACItem}
    (h : searchSentinel2Mosaic resp aoi targetDate m = .ok (some items)) :
    items = (reduceScenes aoi targetDate m resp.features).filterMap toSTACItem := by
  unfold searchSentinel2Mosaic at h
  by_cases hok : resp.ok
  · by_cases hfe : resp.features.isEmpty
    · simp [hok, hfe] at h
    · by_cases hst :
        ((reduceScenes aoi targetDate m resp.features).filterMap toSTACItem).isEmpty
      · simp [hok, hfe, hst] at h
      · simp only [hok, hfe, hst, Bool.not_true, Bool.false_eq_true, if_false,
          Except.ok.injEq, Option.some.injEq] at h
        exact h.symm
  · simp [hok] at h

/-- In the Stage D case (no survivor contains the AOI) the reduction output
is exactly the Stage B survivor list. -/
theorem reduceScenes_stageD {aoi : BBox} {targetDate : ℚ} {m : ℕ} {features : List Feature}
    (hnc : containsAOI aoi (stageB aoi (stageA targetDate m features)) = []) :
    reduceScenes aoi targetDate m features = stageB aoi (stageA targetDate m features) := by
  simp only [reduceScenes, hnc, List.isEmpty_nil, if_true]

/-- Every reduced scene is a Stage B survivor. -/
theorem reduceScenes_subset_stageB {aoi : BBox} {targetDate : ℚ} {m : ℕ}
    {features : List Feature} {x : Feature}
    (h : x ∈ reduceScenes aoi targetDate m features) :
    x ∈ stageB aoi (stageA targetDate m features) := by
  unfold reduceScenes at h
  by_cases hc : (containsAOI aoi (stageB aoi (stageA targetDate m features))).isEmpty
  · rwa [if_pos hc] at h
  · rw [if_neg hc, List.mem_filterMap] at h
    obtain ⟨d, _, hbest⟩ := h
    unfold bestForDate at hbest
    rw [List.head?_eq_some_iff] at hbest
    obtain ⟨ys, hys⟩ := hbest
    have hx : x ∈ List.insertionSort ccRel
        ((containsAOI aoi (stageB aoi (stageA targetDate m features))).filter
          (fun f => calDateOf f.datetime == d)) := by
      rw [hys]; exact List.mem_cons_self _ _
    have hx2 := (List.perm_insertionSort _ _).mem_iff.mp hx
    exact (mem_containsAOI.mp (List.mem_of_mem_filter hx2)).1

/-- Counting through `filterMap` is bounded by counting a transported
predicate on the originals. -/
theorem countP_filterMap_le {α β : Type} (l : List α) (F : α → Option β)
    (p : β → Bool) (q : α → Bool) (hpq : ∀ a b, F a = some b → p b = q a) :
    (l.filterMap F).countP p ≤ l.countP q := by
  induction l with
  | nil => simp
  | cons a l ih =>
    rw [List.filterMap_cons, List.countP_cons]
    cases hFa : F a with
    | none => exact le_trans ih (Nat.le_add_right _ _)
    | some b =>
      rw [List.countP_cons, hpq a b hFa]
      exact Nat.add_le_add ih (le_refl _)

/-! ## C4: returned scenes intersect the exact AOI; all-miss gives null -/

/-- C4: every scene of a successful search result intersects the exact,
unbuffered AOI; and when raw candidates exist but none of them intersects
the true AOI, the search returns `null` (no imagery found) rather than
failing. -/
theorem returned_scenes_intersect_aoi (resp : Response) (aoi : BBox) (targetDate : ℚ)
    (maxCandidatesPerTile : ℕ) :
    (∀ items, searchSentinel2Mosaic resp aoi targetDate maxCandidatesPerTile =
        .ok (some items) →
      ∀ s ∈ items, bboxesIntersect aoi s.bounds = true) ∧
    (resp.ok = true → resp.features ≠ [] →
      (∀ f ∈ resp.features, bboxesIntersect aoi f.bbox = false) →
      searchSentinel2Mosaic resp aoi targetDate maxCandidatesPerTile = .ok none) := by
  constructor
  · intro items hres s hs
    rw [searchSentinel2Mosaic_ok_some hres, List.mem_filterMap] at hs
    obtain ⟨f, hf, hconv⟩ := hs
    have hfB := reduceScenes_subset_stageB hf
    rw [(toSTACItem_fields hconv).1]
    exact (mem_stageB.mp hfB).2
  · intro hok hfne hmiss
    have hB : stageB aoi (stageA targetDate maxCandidatesPerTile resp.features) = [] := by
      unfold stageB
      rw [List.filter_eq_nil_iff]
      intro x hx
      rw [hmiss x (mem_of_mem_stageA hx)]
      simp
    have hred : reduceScenes aoi targetDate maxCandidatesPerTile resp.features = [] := by
      rw [reduceScenes_stageD (by rw [hB]; rfl), hB]
    have hfe : resp.features.isEmpty = false := by
      cases hcase : resp.features with
      | nil => exact absurd hcase hfne
      | cons a l => rfl
    unfold searchSentinel2Mosaic
    rw [hok, hfe, hred]
    rfl

/-- Witness for C4: a found scene intersects the AOI; with one candidate
that misses the AOI entirely the search returns `null`. -/
theorem returned_scenes_intersect_aoi_witness :
    bboxesIntersect aoiTen sPartial.bounds = true ∧
    searchSentinel2Mosaic ⟨true, [fFar]⟩ aoiTen 0 6 = .ok none :=
  ⟨(returned_scenes_intersect_aoi ⟨true, [fPartial]⟩ aoiTen 0 6).1 [sPartial] rfl sPartial
      (List.mem_singleton_self _),
   (returned_scenes_intersect_aoi ⟨true, [fFar]⟩ aoiTen 0 6).2 rfl (by simp)
      (by
        intro f hf
        rw [List.mem_singleton] at hf
        subst hf
        rfl)⟩

/-! ## Counting scenes per spatial group (for C1) -/

theorem firstSeen_nodup {α κ : Type} [DecidableEq κ] (key : α → κ) (l : List α) :
    (firstSeen key l).Nodup := by
  induction l with
  | nil => exact List.nodup_nil
  | cons x xs ih =>
    rw [firstSeen, List.nodup_cons]
    constructor
    · intro hmem
      have := List.of_mem_filter hmem
      simp at this
    · exact ih.filter _

theorem tileKey_of_mem_groupBlock {targetDate : ℚ} {m : ℕ} {fs : List Feature} {k : String}
    {x : Feature} (h : x ∈ rankGroup targetDate m (fs.filter (fun f => tileKey f == k))) :
    tileKey x = k := by
  have hx := (List.mem_filter.mp (mem_of_mem_rankGroup h)).2
  exact beq_iff_eq.mp hx

theorem flatMap_countP_eq_zero {ks : List String} {B : String → List Feature} {k : String}
    (hkey : ∀ k' x, x ∈ B k' → tileKey x = k') (hk : k ∉ ks) :
    ((ks.flatMap B).countP (fun f => tileKey f == k)) = 0 := by
  rw [List.countP_eq_zero]
  intro x hx
  rw [List.mem_flatMap] at hx
  obtain ⟨k', hk', hxk⟩ := hx
  have hxkey := hkey k' x hxk
  have hne : k' ≠ k := fun he => hk (he ▸ hk')
  simp [hxkey, hne]

theorem flatMap_countP_le {m : ℕ} {ks : List String} {B : String → List Feature} {k : String}
    (hnd : ks.Nodup) (hkey : ∀ k' x, x ∈ B k' → tileKey x = k')
    (hlen : ∀ k', (B k').length ≤ m) :
    ((ks.flatMap B).countP (fun f => tileKey f == k)) ≤ m := by
  induction ks with
  | nil => simp
  | cons k' ks ih =>
    rw [List.flatMap_cons, List.countP_append]
    rcases List.nodup_cons.mp hnd with ⟨hnotin, hnd2⟩
    by_cases hk : k' = k
    · subst hk
      have h0 : ((ks.flatMap B).countP (fun f => tileKey f == k')) = 0 :=
        flatMap_countP_eq_zero hkey hnotin
      rw [h0]
      have h1 : (B k').countP (fun f => tileKey f == k') ≤ (B k').length :=
        List.countP_le_length _
      exact le_trans (by omega) (hlen k')
    · have h0 : (B k').countP (fun f => tileKey f == k) = 0 := by
        rw [List.countP_eq_zero]
        intro x hx
        have := hkey k' x hx
        simp [this, hk]
      rw [h0]
      rw [Nat.zero_add]
      exact ih hnd2

theorem stageA_countP_le (targetDate : ℚ) (m : ℕ) (features : List Feature) (k : String) :
    (stageA targetDate m features).countP (fun f => tileKey f == k) ≤ m := by
  unfold stageA
  exact flatMap_countP_le (firstSeen_nodup _ _)
    (fun _ _ hx => tileKey_of_mem_groupBlock hx)
    (fun _ => length_rankGroup_le _ _ _)

/-! ## C1 (amended): Stage D group contributions -/

/-- C1 amended: in a Stage D search (no surviving candidate contains the
AOI), every group key contributes at most `maxCandidatesPerTile` scenes to
the returned list, and at least one scene whenever some ranked Stage A
candidate of that group intersects the AOI and carries a visual asset.
(The original claim's "exactly one" fails: Stage A keeps up to
`maxCandidatesPerTile` candidates per tile and Stage D returns them all.) -/
theorem stageD_group_contribution (resp : Response) (aoi : BBox) (targetDate : ℚ)
    (maxCandidatesPerTile : ℕ) (k : String) (items : List STACItem)
    (hres : searchSentinel2Mosaic resp aoi targetDate maxCandidatesPerTile =
      .ok (some items))
    (hnc : containsAOI aoi (stageB aoi (stageA targetDate maxCandidatesPerTile
      resp.features)) = []) :
    items.countP (fun s => s.tileId == k) ≤ maxCandidatesPerTile ∧
    ((∃ f ∈ stageA targetDate maxCandidatesPerTile resp.features,
        tileKey f = k ∧ bboxesIntersect aoi f.bbox = true ∧ f.hasVisual = true) →
      1 ≤ items.countP (fun s => s.tileId == k)) := by
  have hitems : items =
      (stageB aoi (stageA targetDate maxCandidatesPerTile resp.features)).filterMap
        toSTACItem := by
    rw [searchSentinel2Mosaic_ok_some hres, reduceScenes_stageD hnc]
  constructor
  · rw [hitems]
    refine le_trans (countP_filterMap_le _ _ _ (fun f => tileKey f == k) ?_) ?_
    · intro a b hab
      rw [(toSTACItem_fields hab).2.1]
    · refine le_trans ?_ (stageA_countP_le targetDate maxCandidatesPerTile resp.features k)
      unfold stageB
      exact (List.filter_sublist _).countP_le _
  · rintro ⟨f, hfA, hkey, hint, hvis⟩
    obtain ⟨s, hs⟩ := toSTACItem_of_hasVisual hvis
    have hfB : f ∈ stageB aoi (stageA targetDate maxCandidatesPerTile resp.features) :=
      mem_stageB.mpr ⟨hfA, hint⟩
    have hsmem : s ∈ items := by
      rw [hitems, List.mem_filterMap]
      exact ⟨f, hfB, hs⟩
    have hstile : (s.tileId == k) = true := by
      rw [(toSTACItem_fields hs).2.1, hkey]
      simp
    have hpos : 0 < items.countP (fun s => s.tileId == k) :=
      List.countP_pos_iff.mpr ⟨s, hsmem, hstile⟩
    omega

/-- Witness for the amended C1: a two-group Stage D search in which group
30TXT contributes at least one and at most `maxCandidatesPerTile` scenes. -/
theorem stageD_group_contribution_witness :
    ((reduceScenes aoiTen 0 6 [wWest, wEast]).filterMap toSTACItem).countP
      (fun s => s.tileId == "30TXT") ≤ 6 ∧
    1 ≤ ((reduceScenes aoiTen 0 6 [wWest, wEast]).filterMap toSTACItem).countP
      (fun s => s.tileId == "30TXT") := by
  have h := stageD_group_contribution ⟨true, [wWest, wEast]⟩ aoiTen 0 6 "30TXT"
    ((reduceScenes aoiTen 0 6 [wWest, wEast]).filterMap toSTACItem) rfl rfl
  refine ⟨h.1, h.2 ⟨wWest, ?_, rfl, rfl, rfl⟩⟩
  have hA : stageA 0 6 [wWest, wEast] = [wWest, wEast] := rfl
  rw [hA]
  exact List.mem_cons_self _ _

/-! ## Stage C analysis (for C2) -/

/-- What `bestForDate` guarantees about its pick: it is a containing
candidate of that calendar date with minimal cloud cover among them. -/
theorem bestForDate_spec {containing : List Feature} {d : ℤ} {f : Feature}
    (h : bestForDate containing d = some f) :
    f ∈ containing ∧ calDateOf f.datetime = d ∧
      ∀ g ∈ containing, calDateOf g.datetime = d → f.cloudCover ≤ g.cloudCover := by
  unfold bestForDate at h
  rw [List.head?_eq_some_iff] at h
  obtain ⟨ys, hys⟩ := h
  have hfmem : f ∈ List.insertionSort ccRel
      (containing.filter (fun f => calDateOf f.datetime == d)) := by
    rw [hys]
    exact List.mem_cons_self _ _
  have hfl := (List.perm_insertionSort _ _).mem_iff.mp hfmem
  have hf2 : (calDateOf f.datetime == d) = true := (List.mem_filter.mp hfl).2
  refine ⟨(List.mem_filter.mp hfl).1, beq_iff_eq.mp hf2, ?_⟩
  intro g hg hgd
  have hgl : g ∈ containing.filter (fun f => calDateOf f.datetime == d) :=
    List.mem_filter.mpr ⟨hg, by simp [hgd]⟩
  have hsorted := List.sorted_insertionSort ccRel
    (containing.filter (fun f => calDateOf f.datetime == d))
  have hgmem := (List.perm_insertionSort ccRel _).mem_iff.mpr hgl
  rw [hys] at hgmem hsorted
  rcases List.mem_cons.mp hgmem with he | hgy
  · rw [he]
  · exact List.rel_of_sorted_cons hsorted g hgy

/-- Picking one scene per key from a duplicate-free key list yields at most
one scene per calendar date. -/
theorem keys_filterMap_countP_le_one (F : ℤ → Option Feature)
    (hF : ∀ d x, F d = some x → calDateOf x.datetime = d) (d : ℤ) :
    ∀ ks : List ℤ, ks.Nodup →
      ((ks.filterMap F).countP (fun f => calDateOf f.datetime == d)) ≤ 1 := by
  intro ks
  induction ks with
  | nil =>
    intro
    simp
  | cons k ks ih =>
    intro hnd
    rcases List.nodup_cons.mp hnd with ⟨hnotin, hnd2⟩
    rw [List.filterMap_cons]
    cases hFk : F k with
    | none => exact ih hnd2
    | some x =>
      rw [List.countP_cons]
      have hxk : calDateOf x.datetime = k := hF k x hFk
      by_cases hkd : k = d
      · subst hkd
        have h0 : ((ks.filterMap F).countP (fun f => calDateOf f.datetime == k)) = 0 := by
          rw [List.countP_eq_zero]
          intro y hy
          rw [List.mem_filterMap] at hy
          obtain ⟨d', hd', hFd'⟩ := hy
          have hyd : calDateOf y.datetime = d' := hF d' y hFd'
          have hne : d' ≠ k := fun he => hnotin (he ▸ hd')
          simp [hyd, hne]
        rw [h0]
        simp [hxk]
      · have hcond : (calDateOf x.datetime == d) = false := by
          simp [hxk, hkd]
        rw [hcond]
        simpa using ih hnd2

/-! ## C2: the Stage C short-circuit -/

/-- C2: when at least one AOI-intersecting candidate fully contains the AOI,
the returned list has at most one scene per UTC calendar date, every
returned scene's bounds contains the AOI, and each returned scene has the
lowest cloud cover among the containing candidates of its date. -/
theorem stageC_one_per_date_lowest_cc (resp : Response) (aoi : BBox) (targetDate : ℚ)
    (maxCandidatesPerTile : ℕ) (items : List STACItem)
    (hres : searchSentinel2Mosaic resp aoi targetDate maxCandidatesPerTile =
      .ok (some items))
    (hc : containsAOI aoi (stageB aoi (stageA targetDate maxCandidatesPerTile
      resp.features)) ≠ []) :
    (∀ d : ℤ, items.countP (fun s => calDateOf s.datetime == d) ≤ 1) ∧
    (∀ s ∈ items, bboxContains s.bounds aoi = true) ∧
    (∀ s ∈ items,
      ∀ g ∈ containsAOI aoi (stageB aoi (stageA targetDate maxCandidatesPerTile
        resp.features)),
      calDateOf g.datetime = calDateOf s.datetime → s.cloudCover ≤ g.cloudCover) := by
  set cont := containsAOI aoi (stageB aoi (stageA targetDate maxCandidatesPerTile
    resp.features)) with hcont
  have hcE : cont.isEmpty = false := by
    cases hcc : cont with
    | nil => exact absurd hcc hc
    | cons a l => rfl
  have hredC : reduceScenes aoi targetDate maxCandidatesPerTile resp.features =
      (firstSeen (fun f => calDateOf f.datetime) cont).filterMap (bestForDate cont) := by
    simp only [reduceScenes]
    rw [← hcont, hcE]
    rfl
  have hitems : items =
      ((firstSeen (fun f => calDateOf f.datetime) cont).filterMap
        (bestForDate cont)).filterMap toSTACItem := by
    rw [searchSentinel2Mosaic_ok_some hres, hredC]
  refine ⟨?_, ?_, ?_⟩
  · intro d
    rw [hitems]
    refine le_trans (countP_filterMap_le _ _ _ (fun f => calDateOf f.datetime == d) ?_) ?_
    · intro a b hab
      rw [(toSTACItem_fields hab).2.2.1]
    · exact keys_filterMap_countP_le_one (bestForDate cont)
        (fun d x h => (bestForDate_spec h).2.1) d _ (firstSeen_nodup _ _)
  · intro s hs
    rw [hitems, List.mem_filterMap] at hs
    obtain ⟨f, hf, hconv⟩ := hs
    rw [List.mem_filterMap] at hf
    obtain ⟨d, _, hbest⟩ := hf
    rw [(toSTACItem_fields hconv).1]
    exact (mem_containsAOI.mp (bestForDate_spec hbest).1).2
  · intro s hs g hg hdate
    rw [hitems, List.mem_filterMap] at hs
    obtain ⟨f, hf, hconv⟩ := hs
    rw [List.mem_filterMap] at hf
    obtain ⟨d, _, hbest⟩ := hf
    have hspec := bestForDate_spec hbest
    have hfields := toSTACItem_fields hconv
    rw [hfields.2.2.2.1]
    apply hspec.2.2 g hg
    rw [hdate, hfields.2.2.1, hspec.2.1]

/-- Witness for C2: a one-candidate Stage C search; its returned scene
contains the AOI, dates are unique, and the pick is cloud-minimal. -/
theorem stageC_one_per_date_lowest_cc_witness :
    ([sContain].countP (fun s => calDateOf s.datetime == 2) ≤ 1) ∧
    bboxContains sContain.bounds aoiTen = true ∧
    sContain.cloudCover ≤ fContain.cloudCover := by
  have h := stageC_one_per_date_lowest_cc ⟨true, [fContain]⟩ aoiTen 0 6 [sContain] rfl
    (by decide)
  refine ⟨h.1 2, h.2.1 sContain (List.mem_singleton_self _), ?_⟩
  refine h.2.2 sContain (List.mem_singleton_self _) fContain (by decide) (by decide)

/-! ## The combined-bounds envelope (for C5) -/

theorem combineBounds_contains_acc (acc : BBox) (item : STACItem) :
    bboxContains (combineBounds acc item) acc = true := by
  rw [bboxContains_iff]
  exact ⟨min_le_left _ _, le_max_left _ _, min_le_left _ _, le_max_left _ _⟩

theorem combineBounds_contains_item (acc : BBox) (item : STACItem) :
    bboxContains (combineBounds acc item) item.bounds = true := by
  rw [bboxContains_iff]
  exact ⟨min_le_right _ _, le_max_right _ _, min_le_right _ _, le_max_right _ _⟩

theorem bboxContains_combineBounds_of {c acc : BBox} {item : STACItem}
    (h1 : bboxContains c acc = true) (h2 : bboxContains c item.bounds = true) :
    bboxContains c (combineBounds acc item) = true := by
  rw [bboxContains_iff] at h1 h2 ⊢
  exact ⟨le_min h1.1 h2.1, max_le h1.2.1 h2.2.1, le_min h1.2.2.1 h2.2.2.1,
    max_le h1.2.2.2 h2.2.2.2⟩

theorem foldl_combineBounds_contains_init :
    ∀ (l : List STACItem) (acc : BBox),
      bboxContains (l.foldl combineBounds acc) acc = true := by
  intro l
  induction l with
  | nil => exact fun acc => bboxContains_refl acc
  | cons x l ih =>
    intro acc
    rw [List.foldl_cons]
    exact bboxContains_trans (ih (combineBounds acc x)) (combineBounds_contains_acc acc x)

theorem foldl_combineBounds_contains_mem :
    ∀ (l : List STACItem) (acc : BBox) (x : STACItem), x ∈ l →
      bboxContains (l.foldl combineBounds acc) x.bounds = true := by
  intro l
  induction l with
  | nil =>
    intro acc x hx
    exact absurd hx (List.not_mem_nil x)
  | cons y l ih =>
    intro acc x hx
    rw [List.foldl_cons]
    rcases List.mem_cons.mp hx with he | hxl
    · subst he
      exact bboxContains_trans (foldl_combineBounds_contains_init l (combineBounds acc x))
        (combineBounds_contains_item acc x)
    · exact ih (combineBounds acc y) x hxl

theorem foldl_combineBounds_minimal :
    ∀ (l : List STACItem) (acc c : BBox), bboxContains c acc = true →
      (∀ x ∈ l, bboxContains c x.bounds = true) →
      bboxContains c (l.foldl combineBounds acc) = true := by
  intro l
  induction l with
  | nil => exact fun acc c hacc _ => hacc
  | cons y l ih =>
    intro acc c hacc hall
    rw [List.foldl_cons]
    exact ih (combineBounds acc y) c
      (bboxContains_combineBounds_of hacc (hall y (List.mem_cons_self _ _)))
      (fun x hx => hall x (List.mem_cons_of_mem _ hx))

/-! ## C5: combined bounds is the minimal envelope, order-independently -/

/-- C5: for every non-empty list of scenes, `calculateCombinedBounds`
returns the minimal bounding box containing every constituent scene's
bounds (it contains each of them, and any box containing all of them
contains it), and the result is identical for any permutation of the input
list. -/
theorem combinedBounds_envelope (b : STACItem) (bs : List STACItem) (l' : List STACItem)
    (hperm : (b :: bs).Perm l') :
    ∃ e : BBox,
      calculateCombinedBounds (b :: bs) = some e ∧
      (∀ it ∈ b :: bs, bboxContains e it.bounds = true) ∧
      (∀ c : BBox, (∀ it ∈ b :: bs, bboxContains c it.bounds = true) →
        bboxContains c e = true) ∧
      calculateCombinedBounds l' = some e := by
  refine ⟨(b :: bs).foldl combineBounds b.bounds, rfl,
    fun it hit => foldl_combineBounds_contains_mem _ _ it hit,
    fun c hc => foldl_combineBounds_minimal _ _ c (hc b (List.mem_cons_self _ _)) hc, ?_⟩
  cases hl : l' with
  | nil =>
    rw [hl] at hperm
    have := hperm.length_eq
    simp at this
  | cons b' bs' =>
    rw [hl] at hperm
    have hmm : ∀ x, x ∈ b :: bs ↔ x ∈ b' :: bs' := fun x => hperm.mem_iff
    have h1 : bboxContains ((b :: bs).foldl combineBounds b.bounds)
        ((b' :: bs').foldl combineBounds b'.bounds) = true := by
      refine foldl_combineBounds_minimal _ _ _ ?_ ?_
      · exact foldl_combineBounds_contains_mem _ _ b' ((hmm b').mpr (List.mem_cons_self _ _))
      · exact fun x hx => foldl_combineBounds_contains_mem _ _ x ((hmm x).mpr hx)
    have h2 : bboxContains ((b' :: bs').foldl combineBounds b'.bounds)
        ((b :: bs).foldl combineBounds b.bounds) = true := by
      refine foldl_combineBounds_minimal _ _ _ ?_ ?_
      · exact foldl_combineBounds_contains_mem _ _ b ((hmm b).mp (List.mem_cons_self _ _))
      · exact fun x hx => foldl_combineBounds_contains_mem _ _ x ((hmm x).mp hx)
    have he : (b' :: bs').foldl combineBounds b'.bounds =
        (b :: bs).foldl combineBounds b.bounds := bboxContains_antisymm h2 h1 ▸ rfl
    calc calculateCombinedBounds (b' :: bs')
        = some ((b' :: bs').foldl combineBounds b'.bounds) := rfl
      _ = some ((b :: bs).foldl combineBounds b.bounds) := by rw [he]

/-- Witness for C5: the same three scenes in two different input orders
yield the same minimal envelope. -/
theorem combinedBounds_envelope_witness :
    ∃ e : BBox,
      calculateCombinedBounds [iBox1, iBox2, iBox3] = some e ∧
      (∀ it ∈ [iBox1, iBox2, iBox3], bboxContains e it.bounds = true) ∧
      (∀ c : BBox, (∀ it ∈ [iBox1, iBox2, iBox3], bboxContains c it.bounds = true) →
        bboxContains c e = true) ∧
      calculateCombinedBounds [iBox3, iBox1, iBox2] = some e :=
  combinedBounds_envelope iBox1 [iBox2, iBox3] [iBox3, iBox1, iBox2] (by decide)

end SatChange
